import Mathlib

/-!
Shallow embedding of the retry core of the aiohttp_retry repository:
the retry policies of aiohttp_retry/retry_options.py and the request
executor (_RequestContext) plus URL-list normalization of
aiohttp_retry/client.py.  Durations are modelled as rationals, machine
floats of the source being exact for all values the claims touch.
-/

namespace AiohttpRetry

/-- An HTTP response as the executor sees it: a numeric status, the request
method recorded on it, and an identity tag used to track resource
ownership (which concrete response object is held or released). -/
structure Response where
  id : Nat
  method : String
  status : Nat
deriving Repr, DecidableEq, Inhabited

/-- Exceptions relevant to the executor: transport errors raised by the
underlying client (tagged with an identity so propagation of the very same
object is expressible), and the status-derived error that
response.raise_for_status raises, carrying the numeric status. -/
inductive Exc where
  | transport (id : Nat)
  | responseError (status : Nat)
deriving Repr, DecidableEq

/-- mirrors client.py: _MIN_SERVER_ERROR_STATUS = 500 -/
def MIN_SERVER_ERROR_STATUS : Nat := 500

/-- Values stored in a trace-context map. -/
inductive TVal where
  | nat (n : Nat)
  | str (s : String)
deriving Repr, DecidableEq

/-- A trace_request_ctx dict, as an association list; on lookup a later
entry overrides an earlier one, matching Python dict-literal merging. -/
abbrev Trace := List (String × TVal)

/-- A headers dict. -/
abbrev Headers := List (String × String)

/-- The residual kwargs dict passed through to the underlying client. -/
abbrev Kw := List (String × String)

/-- A raw URL value: str or yarl URL (client.py _RAW_URL_TYPE). -/
inductive RawUrl where
  | str (s : String)
  | yarl (s : String)
deriving Repr, DecidableEq, Inhabited

/-- mirrors the RequestParams dataclass of client.py. -/
structure RequestParams where
  method : String
  url : RawUrl
  headers : Option Headers
  trace_request_ctx : Option Trace
  kwargs : Option Kw
deriving Repr, DecidableEq, Inhabited

/-- The retry policy state the executor consults (RetryOptionsBase of
retry_options.py).  The isinstance test over the configured exception
classes is embedded as the Boolean predicate excFilter; the async
evaluate_response_callback is embedded as a pure Boolean function;
get_timeout is the wait computation of the chosen policy. -/
structure RetryPolicy where
  attempts : Nat
  statuses : List Nat
  excFilter : Exc → Bool
  methods : List String
  retry_all_server_errors : Bool
  evaluate_response_callback : Option (Response → Bool)
  get_timeout : Nat → Option Response → ℚ

/-- The default method set of RetryOptionsBase.__init__. -/
def defaultMethods : List String :=
  ["HEAD", "GET", "PUT", "DELETE", "OPTIONS", "TRACE", "POST", "CONNECT", "PATCH"]

/-- Python str.upper as used on HTTP method names: uppercase every
character (written as a structural map over the character list, the
same char-wise mapping String.toUpper performs, so that concrete runs
evaluate in the kernel). -/
def upper (s : String) : String := ⟨s.data.map Char.toUpper⟩

/-- mirrors _RequestContext._is_skip_retry of client.py (lines 88-104). -/
def is_skip_retry (o : RetryPolicy) (current_attempt : Nat) (response : Response) : Bool :=
  if current_attempt = o.attempts then true
  else if upper response.method ∉ o.methods then true
  else if MIN_SERVER_ERROR_STATUS ≤ response.status ∧ o.retry_all_server_errors = true then false
  else if response.status ∈ o.statuses then false
  else
    match o.evaluate_response_callback with
    | none => true
    | some cb => cb response

/-- mirrors ExponentialRetry of retry_options.py (its timeout fields). -/
structure ExponentialRetry where
  attempts : Nat
  start_timeout : ℚ
  max_timeout : ℚ
  factor : ℚ
deriving Repr, DecidableEq

/-- ExponentialRetry with the default constructor arguments
(attempts=3, start_timeout=0.1, max_timeout=30.0, factor=2.0). -/
def ExponentialRetry.default : ExponentialRetry :=
  { attempts := 3, start_timeout := 1/10, max_timeout := 30, factor := 2 }

/-- mirrors ExponentialRetry.get_timeout of retry_options.py:
timeout = start * factor ** attempt; return min(timeout, max). -/
def ExponentialRetry.get_timeout (s : ExponentialRetry) (attempt : Nat)
    (response : Option Response) : ℚ :=
  let timeout := s.start_timeout * s.factor ^ attempt
  min timeout s.max_timeout

/-- mirrors the mutable state of FibonacciRetry of retry_options.py:
multiplier, max_timeout and the running pair (prev_step, current_step),
both initialised to 1.0 by __init__. -/
structure FibonacciRetry where
  multiplier : ℚ
  max_timeout : ℚ
  prev_step : ℚ
  current_step : ℚ
deriving Repr, DecidableEq

/-- A fresh FibonacciRetry instance with the given multiplier and
max_timeout: __init__ sets prev_step = current_step = 1.0. -/
def FibonacciRetry.fresh (multiplier max_timeout : ℚ) : FibonacciRetry :=
  { multiplier := multiplier, max_timeout := max_timeout,
    prev_step := 1, current_step := 1 }

/-- mirrors FibonacciRetry.get_timeout of retry_options.py; the mutation of
self is made explicit, each call returning the next state alongside the
duration. -/
def FibonacciRetry.get_timeout (s : FibonacciRetry) (attempt : Nat)
    (response : Option Response) : ℚ × FibonacciRetry :=
  let new_current_step := s.prev_step + s.current_step
  let s1 := { s with prev_step := s.current_step, current_step := new_current_step }
  (min (s.multiplier * new_current_step) s.max_timeout, s1)

/-- Successive get_timeout calls on one FibonacciRetry instance, threading
the mutated state; one call per entry of the attempt-argument list. -/
def FibonacciRetry.run_calls (s : FibonacciRetry) (attempt_args : List Nat) : List ℚ :=
  match attempt_args with
  | [] => []
  | a :: rest =>
    let r := s.get_timeout a none
    r.1 :: r.2.run_calls rest

/-- The arguments the executor passes to the underlying request function on
one attempt (client.py lines 119-128): method, url, headers, the merged
trace context dict ("current_attempt" first, caller keys after and thus
overriding on lookup), and the residual kwargs. -/
structure CallArgs where
  method : String
  url : RawUrl
  headers : Option Headers
  trace_request_ctx : Trace
  kwargs : Kw
deriving Repr, DecidableEq

/-- The outcome of one invocation of the underlying request function:
it returns a response or raises an exception. -/
inductive AttemptOutcome where
  | resp (r : Response)
  | exc (e : Exc)
deriving Repr, DecidableEq

/-- mirrors the caller observation of an attempt outcome: a returned
response is an ok result, a raised exception an error result. -/
def AttemptOutcome.toResult : AttemptOutcome → Except Exc Response
  | .resp r => .ok r
  | .exc e => .error e

/-- The underlying HTTP client, an external collaborator: a function from
the passed arguments to the attempt outcome. -/
abbrev RequestFunc := CallArgs → AttemptOutcome

/-- mirrors client.py lines 114-117: params = params_list[current_attempt-1],
falling back to params_list[-1] on IndexError (the constructor asserts the
list nonempty, so the default is unreachable there). -/
def selectParams (ps : List RequestParams) (current_attempt : Nat) : RequestParams :=
  match ps.get? (current_attempt - 1) with
  | some p => p
  | none => ps.getLastD default

/-- mirrors client.py lines 119-128: the arguments built for the request
function on the given attempt, from the selected params. -/
def mkCallArgs (current_attempt : Nat) (p : RequestParams) : CallArgs :=
  { method := p.method, url := p.url, headers := p.headers,
    trace_request_ctx := ("current_attempt", .nat current_attempt) :: p.trace_request_ctx.getD [],
    kwargs := p.kwargs.getD [] }

/-- Modelled from the contract of the external aiohttp ClientResponse
(spec section 6: a way to raise a status-derived error when asked):
response.raise_for_status raises a ClientResponseError carrying the status
exactly when the status is 400 or more, else returns normally. -/
def raise_for_status_exc (r : Response) : Option Exc :=
  if 400 ≤ r.status then some (.responseError r.status) else none

/-- Decidable equality of Except values, needed to evaluate run results on
concrete inputs. -/
instance instDecEqExcept {ε α : Type} [DecidableEq ε] [DecidableEq α] :
    DecidableEq (Except ε α) := fun a b =>
  match a, b with
  | .ok x, .ok y =>
    if h : x = y then isTrue (congrArg Except.ok h)
    else isFalse (fun hh => h (Except.ok.inj hh))
  | .error x, .error y =>
    if h : x = y then isTrue (congrArg Except.error h)
    else isFalse (fun hh => h (Except.error.inj hh))
  | .ok _, .error _ => isFalse (fun hh => Except.noConfusion hh)
  | .error _, .ok _ => isFalse (fun hh => Except.noConfusion hh)

/-- The result of one body of the while-loop in _do_request: either the
loop is done (returning a response or raising an exception to the caller),
or it retries, having called get_timeout with the recorded arguments. -/
inductive StepOut where
  | term (result : Except Exc Response)
  | retry (timeout_args : Nat × Option Response)
deriving Repr, DecidableEq

/-- mirrors the except-handler of _do_request (client.py lines 140-149):
re-raise when current_attempt >= attempts, re-raise the very same exception
when its type matches none of the configured exception classes, else retry
with get_timeout(attempt=current_attempt, response=None). -/
def handleExc (o : RetryPolicy) (current_attempt : Nat) (e : Exc) : StepOut :=
  if o.attempts ≤ current_attempt then .term (.error e)
  else if ¬ (o.excFilter e = true) then .term (.error e)
  else .retry (current_attempt, none)

/-- mirrors the body of the while-loop of _do_request (client.py lines
113-149) after the request function produced the given outcome: on a
response, consult _is_skip_retry; a terminal response goes through
raise_for_status when configured (the raise happens inside the try and is
handled by the same except-handler as a transport error), else it is
returned; a non-skipped response retries with
get_timeout(attempt=current_attempt, response=response).  On an exception
the except-handler decides. -/
def attemptStep (o : RetryPolicy) (raise_fs : Bool) (current_attempt : Nat)
    (out : AttemptOutcome) : StepOut :=
  match out with
  | .exc e => handleExc o current_attempt e
  | .resp r =>
    if is_skip_retry o current_attempt r then
      if raise_fs then
        match raise_for_status_exc r with
        | some e => handleExc o current_attempt e
        | none => .term (.ok r)
      else .term (.ok r)
    else .retry (current_attempt, some r)

/-- The observable record of one _do_request run: the result the caller
sees, the number of attempts made, the arguments of every request
invocation in order, the arguments of every get_timeout call (attempt
argument and id of the response passed, if any), the computed waits, the
ids of responses the executor closed inside the loop (the source closes
none there: no close or release call occurs in _do_request), the ids of
all responses received, and the response stored in self._response. -/
structure RunOut where
  result : Except Exc Response
  made : Nat
  calls : List CallArgs
  timeout_calls : List (Nat × Option Nat)
  waits : List ℚ
  closed_in_loop : List Nat
  acquired : List Nat
  stored : Option Response
deriving Repr, DecidableEq

/-- The response ids a request invocation makes live: the returned
response when the outcome is one, nothing when the call raised. -/
def acquiredOf : AttemptOutcome → List Nat
  | .resp r => [r.id]
  | .exc _ => []

/-- What self._response holds after the terminal loop body: the returned
response on the ok result (client.py line 136), nothing when the terminal
outcome is a raised exception. -/
def storedOf : Except Exc Response → Option Response
  | .ok r => some r
  | .error _ => none

/-- mirrors the while-loop of _do_request (client.py lines 106-152) as a
fuel-indexed recursion; current_attempt is the value before the increment
at the top of the body.  Each iteration makes exactly one request
invocation; none returned means the fuel did not cover the loop (the
termination theorems show fuel = attempts always does when attempts >= 1). -/
def do_request_aux (o : RetryPolicy) (raise_fs : Bool) (req : RequestFunc)
    (ps : List RequestParams) (current_attempt : Nat) (fuel : Nat) : Option RunOut :=
  match fuel with
  | 0 => none
  | fuel + 1 =>
    let i := current_attempt + 1
    let args := mkCallArgs i (selectParams ps i)
    let out := req args
    match attemptStep o raise_fs i out with
    | .term res =>
      some { result := res, made := i, calls := [args], timeout_calls := [],
             waits := [], closed_in_loop := [],
             acquired := acquiredOf out, stored := storedOf res }
    | .retry targs =>
      match do_request_aux o raise_fs req ps i fuel with
      | none => none
      | some rest =>
        some { rest with
               calls := args :: rest.calls,
               timeout_calls := (targs.1, targs.2.map Response.id) :: rest.timeout_calls,
               waits := o.get_timeout targs.1 targs.2 :: rest.waits,
               acquired := acquiredOf out ++ rest.acquired }

/-- _RequestContext._do_request on a context built with the given policy,
raise_for_status flag, request function and params list; the loop needs at
most `attempts` iterations, which the fuel covers. -/
def do_request (o : RetryPolicy) (raise_fs : Bool) (req : RequestFunc)
    (ps : List RequestParams) : Option RunOut :=
  do_request_aux o raise_fs req ps 0 o.attempts

/-- mirrors _RequestContext.__aexit__ (client.py lines 160-167): the ids
closed on scope exit, given self._response and whether it is already
closed: close it when present and not closed. -/
def aexit_closes (stored : Option Response) (already_closed : Bool) : List Nat :=
  match stored with
  | some r => if already_closed then [] else [r.id]
  | none => []

/-- mirrors _url_to_urls of client.py (lines 170-186): a str or yarl URL
becomes a one-element tuple; a list or tuple is taken as is but must be
nonempty; anything else raises ValueError before any request is made. -/
inductive UrlInput where
  | raw (u : RawUrl)
  | list (us : List RawUrl)
  | tuple (us : List RawUrl)
  | other
deriving Repr, DecidableEq

/-- The ValueError message for a URL of unsupported shape. -/
def msgShape : String := "you can pass url only by str or list/tuple"

/-- The ValueError message for an empty URL list or tuple. -/
def msgEmpty : String := "you can pass url by str or list/tuple with attempts count size"

/-- mirrors _url_to_urls of client.py. -/
def url_to_urls (url : UrlInput) : Except String (List RawUrl) :=
  match url with
  | .raw u => .ok [u]
  | .list us => if us.length = 0 then .error msgEmpty else .ok us
  | .tuple us => if us.length = 0 then .error msgEmpty else .ok us
  | .other => .error msgShape

/-- The kwargs dict received by RetryClient._make_request, with the two
keys it pops made explicit and the rest opaque. -/
structure Kwargs where
  headers : Option Headers
  trace_request_ctx : Option Trace
  rest : Kw
deriving Repr, DecidableEq

/-- mirrors kwargs.pop("headers", default-empty-dict): yields the stored value or
the empty dict, and removes the key. -/
def Kwargs.popHeaders (k : Kwargs) : Headers × Kwargs :=
  (k.headers.getD [], { k with headers := none })

/-- mirrors kwargs.pop("trace_request_ctx", None): yields the stored value
or None, and removes the key. -/
def Kwargs.popTraceCtx (k : Kwargs) : Option Trace × Kwargs :=
  (k.trace_request_ctx, { k with trace_request_ctx := none })

/-- mirrors the params_list comprehension of RetryClient._make_request
(client.py lines 363-372): one RequestParams per URL, each iteration
popping headers and trace_request_ctx from the one shared kwargs dict and
passing the shared dict on as the residual kwargs. -/
def buildParamsList (method : String) (urls : List RawUrl) (kwargs : Kwargs) :
    List RequestParams :=
  match urls with
  | [] => []
  | url :: rest =>
    let hk := kwargs.popHeaders
    let tk := hk.2.popTraceCtx
    { method := method, url := url, headers := some hk.1,
      trace_request_ctx := tk.1, kwargs := some tk.2.rest }
      :: buildParamsList method rest tk.2

/-- mirrors RetryClient._make_request (client.py lines 354-378) up to the
construction of the request context: normalize the URL input (raising
ValueError synchronously, before any request function invocation) and
build the params list. -/
def make_request (method : String) (url : UrlInput) (kwargs : Kwargs) :
    Except String (List RequestParams) :=
  match url_to_urls url with
  | .error e => .error e
  | .ok url_list => .ok (buildParamsList method url_list kwargs)

/-- The policy an ExponentialRetry with the given attempts carries, all the
other constructor arguments left at the RetryOptionsBase defaults: empty
status set, empty exception set (so the isinstance test over it is always
false), the default method set, retry_all_server_errors on, no callback,
and the exponential timeout with start 0.1, max 30, factor 2. -/
def expPolicy (attempts : Nat) : RetryPolicy :=
  { attempts := attempts, statuses := [], excFilter := fun _ => false,
    methods := defaultMethods, retry_all_server_errors := true,
    evaluate_response_callback := none,
    get_timeout := fun a r =>
      ExponentialRetry.get_timeout
        { attempts := attempts, start_timeout := 1/10, max_timeout := 30, factor := 2 } a r }

/-- A GET response with status 500. -/
def r500 : Response := { id := 0, method := "GET", status := 500 }

/-- A target that always returns the status-500 response. -/
def req500 : RequestFunc := fun _ => .resp r500

/-- A one-URL params list for the scenarios. -/
def params500 : RequestParams :=
  { method := "GET", url := .str "/ping", headers := none,
    trace_request_ctx := none, kwargs := none }

/-- A target that always returns status 500, each attempt producing a fresh
response object: the id is the current_attempt of the passed trace context,
so distinct attempts yield distinct live resources. -/
def req500Fresh : RequestFunc := fun args =>
  .resp { id := (match args.trace_request_ctx with
                 | ("current_attempt", .nat n) :: _ => n
                 | _ => 0),
          method := "GET", status := 500 }

/-- A policy with attempts=2 whose method set holds only GET, whose
exception set matches every exception (as exceptions set to the class
Exception alone would), retry_all_server_errors on and no callback. -/
def polC7 : RetryPolicy :=
  { attempts := 2, statuses := [], excFilter := fun _ => true,
    methods := ["GET"], retry_all_server_errors := true,
    evaluate_response_callback := none,
    get_timeout := fun _ _ => 0 }

/-- A POST response with status 500. -/
def rPOST : Response := { id := 1, method := "POST", status := 500 }

/-- A target that always returns the POST status-500 response. -/
def reqPOST : RequestFunc := fun _ => .resp rPOST

/-- A kwargs dict with caller-supplied headers, trace context and one
residual entry, for the concrete multi-URL scenario. -/
def kwB : Kwargs :=
  { headers := some [("x-a", "b")], trace_request_ctx := some [("t", .str "v")],
    rest := [("json", "1")] }

/-- A retry decision of the except-handler happened strictly before the
attempt budget and recorded the current attempt as the get_timeout
argument. -/
theorem handleExc_retry_inv {o : RetryPolicy} {i : Nat} {e : Exc}
    {t : Nat × Option Response}
    (h : handleExc o i e = .retry t) : t.1 = i ∧ i < o.attempts := by
  unfold handleExc at h
  by_cases h1 : o.attempts ≤ i
  · rw [if_pos h1] at h
    exact absurd h (by simp)
  · rw [if_neg h1] at h
    by_cases h2 : ¬ (o.excFilter e = true)
    · rw [if_pos h2] at h
      exact absurd h (by simp)
    · rw [if_neg h2] at h
      have h3 := StepOut.retry.inj h
      exact ⟨by rw [← h3], by omega⟩

/-- A loop body that decides to retry did so at an attempt other than the
last allowed one, and recorded that attempt as the get_timeout argument. -/
theorem attemptStep_retry_inv {o : RetryPolicy} {raise_fs : Bool} {i : Nat}
    {out : AttemptOutcome} {t : Nat × Option Response}
    (h : attemptStep o raise_fs i out = .retry t) : t.1 = i ∧ i ≠ o.attempts := by
  cases out with
  | exc e =>
    have h2 : handleExc o i e = .retry t := h
    have h3 := handleExc_retry_inv h2
    exact ⟨h3.1, by omega⟩
  | resp r =>
    have h2 : (if is_skip_retry o i r = true then
        (if raise_fs = true then
          (match raise_for_status_exc r with
            | some e => handleExc o i e
            | none => StepOut.term (Except.ok r))
          else StepOut.term (Except.ok r))
        else StepOut.retry (i, some r)) = StepOut.retry t := h
    by_cases hskip : is_skip_retry o i r = true
    · rw [if_pos hskip] at h2
      cases raise_fs with
      | false =>
        rw [if_neg (by simp)] at h2
        exact absurd h2 (by simp)
      | true =>
        rw [if_pos rfl] at h2
        cases hr : raise_for_status_exc r with
        | some e =>
          rw [hr] at h2
          have h3 := handleExc_retry_inv h2
          exact ⟨h3.1, by omega⟩
        | none =>
          rw [hr] at h2
          exact absurd h2 (by simp)
    · rw [if_neg hskip] at h2
      have hne : i ≠ o.attempts := by
        intro heq
        apply hskip
        unfold is_skip_retry
        rw [if_pos heq]
      have h3 := StepOut.retry.inj h2
      exact ⟨by rw [← h3], hne⟩

/-- With raise_for_status off, a terminal loop body yields exactly the
outcome of the attempt: the response as the ok result, the raised
exception as the error result. -/
theorem attemptStep_term_of_not_raise {o : RetryPolicy} {i : Nat}
    {out : AttemptOutcome} {res : Except Exc Response}
    (h : attemptStep o false i out = .term res) : res = out.toResult := by
  cases out with
  | exc e =>
    have h2 : handleExc o i e = .term res := h
    unfold handleExc at h2
    by_cases h1 : o.attempts ≤ i
    · rw [if_pos h1] at h2
      exact (StepOut.term.inj h2).symm
    · rw [if_neg h1] at h2
      by_cases hf : ¬ (o.excFilter e = true)
      · rw [if_pos hf] at h2
        exact (StepOut.term.inj h2).symm
      · rw [if_neg hf] at h2
        exact absurd h2 (by simp)
  | resp r =>
    have h2 : (if is_skip_retry o i r = true then
        (if (false : Bool) = true then
          (match raise_for_status_exc r with
            | some e => handleExc o i e
            | none => StepOut.term (Except.ok r))
          else StepOut.term (Except.ok r))
        else StepOut.retry (i, some r)) = StepOut.term res := h
    by_cases hskip : is_skip_retry o i r = true
    · rw [if_pos hskip, if_neg (by simp)] at h2
      exact (StepOut.term.inj h2).symm
    · rw [if_neg hskip] at h2
      exact absurd h2 (by simp)

/-- The central characterization of the attempt loop: starting after
current_attempt attempts with enough fuel to reach the attempt budget, the
loop completes; the run makes between current_attempt+1 and attempts
attempts in total, invokes the request function once per attempt with the
parameters selected for that attempt, calls get_timeout exactly on the
non-final attempts with the current attempt number as argument, closes no
response inside the loop, ends with a final loop body that is terminal
with the observed result, and stores the response exactly when the result
is an ok one. -/
theorem do_request_aux_total (o : RetryPolicy) (raise_fs : Bool) (req : RequestFunc)
    (ps : List RequestParams) :
    ∀ (fuel i : Nat), i < o.attempts → o.attempts ≤ i + fuel →
    ∃ out : RunOut, do_request_aux o raise_fs req ps i fuel = some out ∧
      i < out.made ∧ out.made ≤ o.attempts ∧
      out.calls = (List.range' (i+1) (out.made - i)).map
        (fun j => mkCallArgs j (selectParams ps j)) ∧
      out.timeout_calls.map Prod.fst = List.range' (i+1) (out.made - i - 1) ∧
      out.closed_in_loop = [] ∧
      attemptStep o raise_fs out.made (req (mkCallArgs out.made (selectParams ps out.made)))
        = .term out.result ∧
      out.stored = storedOf out.result := by
  intro fuel
  induction fuel with
  | zero =>
    intro i h1 h2
    omega
  | succ fuel ih =>
    intro i h1 h2
    cases hstep : attemptStep o raise_fs (i+1)
        (req (mkCallArgs (i+1) (selectParams ps (i+1)))) with
    | term res =>
      refine ⟨{ result := res, made := i+1,
                calls := [mkCallArgs (i+1) (selectParams ps (i+1))],
                timeout_calls := [], waits := [], closed_in_loop := [],
                acquired := acquiredOf (req (mkCallArgs (i+1) (selectParams ps (i+1)))),
                stored := storedOf res },
              ?_, ?_, ?_, ?_, ?_, ?_, ?_, ?_⟩
      · show do_request_aux o raise_fs req ps i (fuel+1) = _
        simp only [do_request_aux, hstep]
      · show i < i + 1
        omega
      · show i + 1 ≤ o.attempts
        omega
      · show [mkCallArgs (i+1) (selectParams ps (i+1))]
          = (List.range' (i+1) (i+1-i)).map (fun j => mkCallArgs j (selectParams ps j))
        have h3 : i + 1 - i = 1 := by omega
        rw [h3]
        rfl
      · show ([] : List (Nat × Option Nat)).map Prod.fst = List.range' (i+1) (i+1-i-1)
        have h3 : i + 1 - i - 1 = 0 := by omega
        rw [h3]
        rfl
      · show ([] : List Nat) = []
        rfl
      · show attemptStep o raise_fs (i+1) (req (mkCallArgs (i+1) (selectParams ps (i+1))))
          = .term res
        exact hstep
      · show storedOf res = storedOf res
        rfl
    | retry targs =>
      have hinv := attemptStep_retry_inv hstep
      have h1s : i + 1 < o.attempts := by omega
      obtain ⟨rest, hrest, hlt, hle, hcalls, htime, hclosed, hfinal, hstored⟩ :=
        ih (i+1) h1s (by omega)
      refine ⟨{ rest with
                calls := mkCallArgs (i+1) (selectParams ps (i+1)) :: rest.calls,
                timeout_calls := (targs.1, targs.2.map Response.id) :: rest.timeout_calls,
                waits := o.get_timeout targs.1 targs.2 :: rest.waits,
                acquired := acquiredOf (req (mkCallArgs (i+1) (selectParams ps (i+1))))
                  ++ rest.acquired },
              ?_, ?_, ?_, ?_, ?_, ?_, ?_, ?_⟩
      · show do_request_aux o raise_fs req ps i (fuel+1) = _
        simp only [do_request_aux, hstep, hrest]
      · show i < rest.made
        omega
      · show rest.made ≤ o.attempts
        exact hle
      · show mkCallArgs (i+1) (selectParams ps (i+1)) :: rest.calls
          = (List.range' (i+1) (rest.made - i)).map (fun j => mkCallArgs j (selectParams ps j))
        have hzm : rest.made - i = (rest.made - (i+1)) + 1 := by omega
        rw [hzm, List.range'_succ, List.map_cons, hcalls]
      · show ((targs.1, targs.2.map Response.id) :: rest.timeout_calls).map Prod.fst
          = List.range' (i+1) (rest.made - i - 1)
        have hzm : rest.made - i - 1 = (rest.made - (i+1) - 1) + 1 := by omega
        rw [List.map_cons, htime, hinv.1, hzm, List.range'_succ]
      · show rest.closed_in_loop = []
        exact hclosed
      · show attemptStep o raise_fs rest.made
            (req (mkCallArgs rest.made (selectParams ps rest.made))) = .term rest.result
        exact hfinal
      · show rest.stored = storedOf rest.result
        exact hstored

/-- With raise_for_status off, the loop body on a response is terminal
with that response when the skip decision says so, and retries otherwise. -/
theorem attemptStep_resp_not_raise (o : RetryPolicy) (i : Nat) (r : Response) :
    attemptStep o false i (.resp r) =
      (if is_skip_retry o i r = true then StepOut.term (Except.ok r)
       else StepOut.retry (i, some r)) := by
  by_cases hskip : is_skip_retry o i r = true
  · have h2 : attemptStep o false i (.resp r) = (if (false : Bool) = true then
        (match raise_for_status_exc r with
          | some e => handleExc o i e
          | none => StepOut.term (Except.ok r))
        else StepOut.term (Except.ok r)) := by
      show (if is_skip_retry o i r = true then _ else _) = _
      rw [if_pos hskip]
    rw [h2, if_neg (by simp), if_pos hskip]
  · show (if is_skip_retry o i r = true then _ else _) = _
    rw [if_neg hskip, if_neg hskip]

/-- C2: when an attempt returns a response, the executor retries if and
only if the current attempt is not the last allowed one, the upper-cased
method is in the allowed method set, and either the status qualifies
(5xx with retry_all_server_errors, or in the explicit status set) or,
when neither status condition holds, an evaluation callback exists and
returns false on the response.  Otherwise the response is terminal. -/
theorem spec_C2 : ∀ (o : RetryPolicy) (i : Nat) (r : Response),
    (attemptStep o false i (.resp r) = .retry (i, some r) ↔ is_skip_retry o i r = false) ∧
    (is_skip_retry o i r = false ↔
      (i ≠ o.attempts ∧ upper r.method ∈ o.methods ∧
        ((MIN_SERVER_ERROR_STATUS ≤ r.status ∧ o.retry_all_server_errors = true) ∨
         r.status ∈ o.statuses ∨
         (¬(MIN_SERVER_ERROR_STATUS ≤ r.status ∧ o.retry_all_server_errors = true) ∧
          r.status ∉ o.statuses ∧
          ∃ cb, o.evaluate_response_callback = some cb ∧ cb r = false)))) := by
  intro o i r
  constructor
  · rw [attemptStep_resp_not_raise]
    by_cases hskip : is_skip_retry o i r = true
    · rw [if_pos hskip]
      simp [hskip]
    · rw [if_neg hskip]
      simp [Bool.not_eq_true] at hskip
      simp [hskip]
  · unfold is_skip_retry
    by_cases h1 : i = o.attempts
    · simp [h1]
    · rw [if_neg h1]
      by_cases h2 : upper r.method ∉ o.methods
      · rw [if_pos h2]
        simp [h1, h2]
      · rw [if_neg h2]
        rw [not_not] at h2
        by_cases h3 : MIN_SERVER_ERROR_STATUS ≤ r.status ∧ o.retry_all_server_errors = true
        · rw [if_pos h3]
          simp [h1, h2, h3]
        · rw [if_neg h3]
          by_cases h4 : r.status ∈ o.statuses
          · rw [if_pos h4]
            simp [h1, h2, h3, h4]
          · rw [if_neg h4]
            cases hcb : o.evaluate_response_callback with
            | none => simp [h1, h2, h3, h4, hcb]
            | some cb => simp [h1, h2, h3, h4, hcb]

/-- The except-handler of _do_request in closed form: retry exactly when
attempts remain and the exception kind is allow-listed, else re-raise the
same exception. -/
theorem handleExc_eq (o : RetryPolicy) (i : Nat) (e : Exc) :
    handleExc o i e =
      (if i < o.attempts ∧ o.excFilter e = true then StepOut.retry (i, none)
       else StepOut.term (Except.error e)) := by
  unfold handleExc
  by_cases h1 : o.attempts ≤ i
  · rw [if_pos h1, if_neg (fun hc => absurd hc.1 (Nat.not_lt.mpr h1))]
  · rw [if_neg h1]
    by_cases h2 : ¬ (o.excFilter e = true)
    · rw [if_pos h2, if_neg (fun hc => h2 hc.2)]
    · rw [if_neg h2, if_pos ⟨Nat.lt_of_not_le h1, not_not.mp h2⟩]

/-- C3: when an attempt raises an exception, the executor retries exactly
when attempts remain and the exception is an instance of one of the
configured retryable exception types; in every other case the very same
exception value propagates as the terminal failure. -/
theorem spec_C3 : ∀ (o : RetryPolicy) (raise_fs : Bool) (i : Nat) (e : Exc),
    attemptStep o raise_fs i (.exc e) =
      (if i < o.attempts ∧ o.excFilter e = true then StepOut.retry (i, none)
       else StepOut.term (Except.error e)) := by
  intro o rfs i e
  show handleExc o i e = _
  exact handleExc_eq o i e

/-- C5: ExponentialRetry.get_timeout equals
min(start_timeout * factor^attempt, max_timeout), does not depend on the
response argument, and with the default start 0.1, factor 2, max 30 the
attempts 0 through 9 yield exactly
0.1, 0.2, 0.4, 0.8, 1.6, 3.2, 6.4, 12.8, 25.6, 30. -/
theorem spec_C5 :
    (∀ (s : ExponentialRetry) (attempt : Nat) (r1 r2 : Option Response),
      s.get_timeout attempt r1 = min (s.start_timeout * s.factor ^ attempt) s.max_timeout ∧
      s.get_timeout attempt r1 = s.get_timeout attempt r2) ∧
    ([0, 1, 2, 3, 4, 5, 6, 7, 8, 9] : List Nat).map
        (fun a => ExponentialRetry.default.get_timeout a none) =
      [1/10, 1/5, 2/5, 4/5, 8/5, 16/5, 32/5, 64/5, 128/5, 30] := by
  constructor
  · intro s a r1 r2
    exact ⟨rfl, rfl⟩
  · norm_num [ExponentialRetry.get_timeout, ExponentialRetry.default, min_def]

/-- C9: FibonacciRetry.get_timeout ignores both the attempt and the
response argument, each call advancing the internal pair by one Fibonacci
step; on a fresh instance with multiplier 2 and max_timeout 60 the first
10 calls return exactly 4, 6, 10, 16, 26, 42, 60, 60, 60, 60, staying
clamped at the max once reached. -/
theorem spec_C9 :
    (∀ (s : FibonacciRetry) (a b : Nat) (r1 r2 : Option Response),
      s.get_timeout a r1 = s.get_timeout b r2) ∧
    (FibonacciRetry.fresh 2 60).run_calls [0, 1, 2, 3, 4, 5, 6, 7, 8, 9] =
      [4, 6, 10, 16, 26, 42, 60, 60, 60, 60] := by
  constructor
  · intro s a b r1 r2
    rfl
  · norm_num [FibonacciRetry.run_calls, FibonacciRetry.get_timeout,
      FibonacciRetry.fresh, min_def]

/-- C1: with attempts >= 1 the attempt loop terminates within the attempt
budget, the request function is invoked exactly once per attempt and hence
at most attempts times, the final loop body is terminal with exactly the
result the caller observes (with raise_for_status off this is literally
the final attempt response or raised exception); in the concrete
always-500 scenario with attempts=5, retry_all_server_errors and an
allowed method, exactly 5 attempts are made and the returned response has
status 500. -/
theorem spec_C1 :
    (∀ (o : RetryPolicy) (raise_fs : Bool) (req : RequestFunc) (ps : List RequestParams),
      1 ≤ o.attempts →
      ∃ out : RunOut, do_request o raise_fs req ps = some out ∧
        out.calls.length = out.made ∧ 1 ≤ out.made ∧ out.made ≤ o.attempts ∧
        attemptStep o raise_fs out.made (req (mkCallArgs out.made (selectParams ps out.made)))
          = .term out.result ∧
        (raise_fs = false →
          out.result = (req (mkCallArgs out.made (selectParams ps out.made))).toResult)) ∧
    (do_request (expPolicy 5) false req500 [params500]).map
        (fun out => (out.made, out.result)) = some (5, .ok r500) := by
  constructor
  · intro o rfs req ps h
    obtain ⟨out, heq, hlt, hle, hcalls, htime, hclosed, hfinal, hstored⟩ :=
      do_request_aux_total o rfs req ps o.attempts 0 (by omega) (by omega)
    refine ⟨out, heq, ?_, by omega, hle, hfinal, ?_⟩
    · rw [hcalls, List.length_map, List.length_range']
      omega
    · intro hrfs
      subst hrfs
      exact attemptStep_term_of_not_raise hfinal
  · decide

/-- Witness for C1 at the concrete 500 scenario. -/
theorem spec_C1_witness :
    ∃ out : RunOut, do_request (expPolicy 5) false req500 [params500] = some out ∧
      out.calls.length = out.made ∧ 1 ≤ out.made ∧ out.made ≤ (expPolicy 5).attempts ∧
      attemptStep (expPolicy 5) false out.made
          (req500 (mkCallArgs out.made (selectParams [params500] out.made)))
        = .term out.result ∧
      (false = false →
        out.result
          = (req500 (mkCallArgs out.made (selectParams [params500] out.made))).toResult) :=
  spec_C1.1 (expPolicy 5) false req500 [params500] (by decide)

/-- C4 counterexample: with attempts=2 and a target always returning 500,
the one get_timeout call before the first retry passes attempt=1 (the
number of attempts already made), not 0, and the default Exponential wait
at argument 1 is start_timeout*factor = 0.2, not start_timeout = 0.1. -/
theorem spec_C4_cex :
    (do_request (expPolicy 2) false req500 [params500]).map
        (fun out => out.timeout_calls) = some [(1, some 0)] ∧
    ExponentialRetry.default.get_timeout 1 none = 1/5 ∧
    ExponentialRetry.default.get_timeout 0 none = 1/10 ∧
    (1/5 : ℚ) ≠ 1/10 := by
  refine ⟨by decide, ?_, ?_, by norm_num⟩
  · norm_num [ExponentialRetry.get_timeout, ExponentialRetry.default, min_def]
  · norm_num [ExponentialRetry.get_timeout, ExponentialRetry.default, min_def]

/-- C4 (amended): the attempt index passed to get_timeout is 1-based, equal
to the number of attempts already made: the recorded arguments of a run
are exactly 1, 2, ..., made-1; consequently with an Exponential policy the
wait before the first retry is min(start_timeout*factor, max_timeout),
growing geometrically from there. -/
theorem spec_C4 :
    (∀ (o : RetryPolicy) (raise_fs : Bool) (req : RequestFunc) (ps : List RequestParams),
      1 ≤ o.attempts →
      ∃ out : RunOut, do_request o raise_fs req ps = some out ∧
        out.timeout_calls.map Prod.fst = List.range' 1 (out.made - 1)) ∧
    (∀ s : ExponentialRetry,
      s.get_timeout 1 none = min (s.start_timeout * s.factor) s.max_timeout) := by
  constructor
  · intro o rfs req ps h
    obtain ⟨out, heq, hlt, hle, hcalls, htime, hclosed, hfinal, hstored⟩ :=
      do_request_aux_total o rfs req ps o.attempts 0 (by omega) (by omega)
    exact ⟨out, heq, by simpa using htime⟩
  · intro s
    show min (s.start_timeout * s.factor ^ (1 : Nat)) s.max_timeout = _
    rw [pow_one]

/-- Witness for the amended C4 at the concrete two-attempt scenario. -/
theorem spec_C4_witness :
    ∃ out : RunOut, do_request (expPolicy 2) false req500 [params500] = some out ∧
      out.timeout_calls.map Prod.fst = List.range' 1 (out.made - 1) :=
  spec_C4.1 (expPolicy 2) false req500 [params500] (by decide)

/-- C6: an empty URL list or tuple, or a URL of unsupported shape, makes
_url_to_urls raise ValueError, so _make_request fails before any request
function invocation (no executor is ever constructed, zero attempts); for
a nonempty params list, attempt i uses the entry at index
min(i-1, length-1), so attempts beyond the list reuse the last entry, and
every run invokes the request function with exactly those parameters. -/
theorem spec_C6 :
    url_to_urls (.list []) = .error msgEmpty ∧
    url_to_urls (.tuple []) = .error msgEmpty ∧
    url_to_urls .other = .error msgShape ∧
    (∀ (m : String) (k : Kwargs), make_request m (.list []) k = .error msgEmpty) ∧
    (∀ (m : String) (k : Kwargs), make_request m .other k = .error msgShape) ∧
    (∀ (ps : List RequestParams) (i : Nat), ps ≠ [] → 1 ≤ i →
      selectParams ps i = ps.getD (min (i - 1) (ps.length - 1)) default) ∧
    (∀ (o : RetryPolicy) (raise_fs : Bool) (req : RequestFunc) (ps : List RequestParams),
      1 ≤ o.attempts →
      ∃ out : RunOut, do_request o raise_fs req ps = some out ∧
        out.calls = (List.range' 1 out.made).map (fun j => mkCallArgs j (selectParams ps j))) := by
  refine ⟨rfl, rfl, rfl, fun m k => rfl, fun m k => rfl, ?_, ?_⟩
  · intro ps i hps hi
    unfold selectParams
    cases hg : ps.get? (i - 1) with
    | some p =>
      have hlt : i - 1 < ps.length := by
        by_contra hc
        rw [List.get?_eq_none.mpr (by omega)] at hg
        cases hg
      have hmin : min (i - 1) (ps.length - 1) = i - 1 := by omega
      rw [List.getD_eq_get?, hmin, hg]
      rfl
    | none =>
      have hge : ps.length ≤ i - 1 := by
        by_contra hc
        rw [(List.get?_eq_get (by omega) : ps.get? (i-1) = _)] at hg
        cases hg
      have hlen : 1 ≤ ps.length := List.length_pos.mpr hps
      have hmin : min (i - 1) (ps.length - 1) = ps.length - 1 := by omega
      rw [List.getD_eq_get?, hmin, ← List.getLast?_eq_get?, List.getLastD_eq_getLast?]
  · intro o rfs req ps h
    obtain ⟨out, heq, hlt, hle, hcalls, htime, hclosed, hfinal, hstored⟩ :=
      do_request_aux_total o rfs req ps o.attempts 0 (by omega) (by omega)
    exact ⟨out, heq, by simpa using hcalls⟩

/-- Witness for C6 at concrete inputs: attempt 3 over a one-entry params
list reuses that entry, and a concrete run invokes per the selection. -/
theorem spec_C6_witness :
    (selectParams [params500] 3
      = [params500].getD (min (3 - 1) ([params500].length - 1)) default) ∧
    (∃ out : RunOut, do_request (expPolicy 2) false req500Fresh [params500] = some out ∧
      out.calls = (List.range' 1 out.made).map
        (fun j => mkCallArgs j (selectParams [params500] j))) :=
  ⟨spec_C6.2.2.2.2.2.1 [params500] 3 (by decide) (by decide),
   spec_C6.2.2.2.2.2.2 (expPolicy 2) false req500Fresh [params500] (by decide)⟩

/-- Once the shared kwargs dict has had headers and trace_request_ctx
popped, every later RequestParams gets empty headers and no trace
context. -/
theorem buildParamsList_drained (m : String) :
    ∀ (us : List RawUrl) (k : Kwargs), k.headers = none → k.trace_request_ctx = none →
    ∀ p ∈ buildParamsList m us k, p.headers = some [] ∧ p.trace_request_ctx = none := by
  intro us
  induction us with
  | nil =>
    intro k hh ht p hp
    simp [buildParamsList] at hp
  | cons u rest ih =>
    intro k hh ht p hp
    rw [buildParamsList] at hp
    simp only [Kwargs.popHeaders, Kwargs.popTraceCtx, hh, ht] at hp
    rcases List.mem_cons.mp hp with hp1 | hp2
    · subst hp1
      exact ⟨rfl, rfl⟩
    · exact ih _ rfl rfl p hp2

/-- C10: when _make_request builds params for two or more URLs, only the
first RequestParams receives the caller headers and trace_request_ctx;
every later one is built with empty headers and no trace context, both
keys having been popped from the shared kwargs dict on the first
iteration. -/
theorem spec_C10 :
    ∀ (m : String) (u0 u1 : RawUrl) (us : List RawUrl) (k : Kwargs),
      ∃ tail : List RequestParams,
        buildParamsList m (u0 :: u1 :: us) k =
          { method := m, url := u0, headers := some (k.headers.getD []),
            trace_request_ctx := k.trace_request_ctx, kwargs := some k.rest } :: tail ∧
        ∀ p ∈ tail, p.headers = some [] ∧ p.trace_request_ctx = none := by
  intro m u0 u1 us k
  refine ⟨buildParamsList m (u1 :: us)
      { headers := none, trace_request_ctx := none, rest := k.rest }, ?_, ?_⟩
  · rw [buildParamsList]
    rfl
  · exact buildParamsList_drained m (u1 :: us) _ rfl rfl

/-- Witness for C10 at a concrete two-URL call with caller-supplied
headers, trace context and a residual kwarg. -/
theorem spec_C10_witness :
    ∃ tail : List RequestParams,
      buildParamsList "GET" [RawUrl.str "/a", RawUrl.str "/b"] kwB =
        { method := "GET", url := RawUrl.str "/a",
          headers := some (kwB.headers.getD []),
          trace_request_ctx := kwB.trace_request_ctx, kwargs := some kwB.rest } :: tail ∧
      ∀ p ∈ tail, p.headers = some [] ∧ p.trace_request_ctx = none :=
  spec_C10 "GET" (RawUrl.str "/a") (RawUrl.str "/b") [] kwB

/-- C7 counterexample: with attempts=2, methods={GET}, an exception set
matching every kind (as exceptions={Exception} would) and raise_for_status
on, a POST 500 response is declared terminal by the skip decision at
attempt 1 (method not allowed), raise_for_status raises the status error
carrying 500 inside the try, the except-handler catches it and retries,
and a second attempt is made: raising the status error did trigger a
further attempt. -/
theorem spec_C7_cex :
    is_skip_retry polC7 1 rPOST = true ∧
    raise_for_status_exc rPOST = some (.responseError 500) ∧
    attemptStep polC7 true 1 (.resp rPOST) = .retry (1, none) ∧
    (do_request polC7 true reqPOST [params500]).map
        (fun out => (out.made, out.result)) = some (2, .error (.responseError 500)) :=
  ⟨by decide, by decide, by decide, by decide⟩

/-- C7 (amended): a status error arises only when raise_for_status is on
and the response the skip decision declared final carries status >= 400;
it carries that numeric status and is a different kind from transport
errors; but raising it is terminal only when no attempts remain or its
kind is not among the retryable exception types - otherwise the raised
status error triggers a further attempt like any retryable exception. -/
theorem spec_C7 :
    (∀ (o : RetryPolicy) (i : Nat) (r : Response),
      attemptStep o false i (.resp r) = .term (.ok r) ∨
      attemptStep o false i (.resp r) = .retry (i, some r)) ∧
    (∀ (o : RetryPolicy) (i : Nat) (r : Response),
      is_skip_retry o i r = true →
      attemptStep o true i (.resp r) =
        (if 400 ≤ r.status then handleExc o i (.responseError r.status)
         else StepOut.term (Except.ok r))) ∧
    (∀ (o : RetryPolicy) (i s : Nat),
      handleExc o i (.responseError s) =
        (if i < o.attempts ∧ o.excFilter (.responseError s) = true
         then StepOut.retry (i, none) else StepOut.term (Except.error (.responseError s)))) ∧
    (∀ (s id2 : Nat), Exc.responseError s ≠ Exc.transport id2) := by
  refine ⟨?_, ?_, ?_, ?_⟩
  · intro o i r
    rw [attemptStep_resp_not_raise]
    by_cases h : is_skip_retry o i r = true
    · left
      rw [if_pos h]
    · right
      rw [if_neg h]
  · intro o i r hskip
    have h2 : attemptStep o true i (.resp r) =
        (match raise_for_status_exc r with
          | some e => handleExc o i e
          | none => StepOut.term (Except.ok r)) := by
      show (if is_skip_retry o i r = true then _ else _) = _
      rw [if_pos hskip, if_pos rfl]
    rw [h2]
    unfold raise_for_status_exc
    by_cases hs : 400 ≤ r.status
    · rw [if_pos hs, if_pos hs]
    · rw [if_neg hs, if_neg hs]
  · intro o i s
    exact handleExc_eq o i (.responseError s)
  · intro s id2 h
    cases h

/-- Witness for the amended C7 at the concrete skip-then-raise scenario. -/
theorem spec_C7_witness :
    attemptStep polC7 true 1 (.resp rPOST) =
      (if 400 ≤ rPOST.status then handleExc polC7 1 (.responseError rPOST.status)
       else StepOut.term (Except.ok rPOST)) :=
  spec_C7.2.1 polC7 1 rPOST (by decide)

/-- C8 counterexample: in a two-attempt always-500 run with distinct
response objects per attempt, a retry and its get_timeout call happen
after the first response (one timeout call recorded), yet the executor
closes nothing inside the loop: the attempt-1 response is not released
before the inter-attempt sleep, so while attempt 2 is live both responses
are unreleased. -/
theorem spec_C8_cex :
    (do_request (expPolicy 2) false req500Fresh [params500]).map
        (fun out => (out.acquired, out.closed_in_loop, out.timeout_calls.length))
      = some ([1, 2], [], 1) := by decide

/-- C8 (amended): the executor never closes a response inside the attempt
loop - a response discarded for retry is simply dropped, not released;
only the stored final response exists for release, and scope exit closes
exactly that stored response when present and not already closed. -/
theorem spec_C8 :
    (∀ (o : RetryPolicy) (raise_fs : Bool) (req : RequestFunc) (ps : List RequestParams)
        (i fuel : Nat) (out : RunOut),
      do_request_aux o raise_fs req ps i fuel = some out →
      out.closed_in_loop = [] ∧ out.stored = storedOf out.result) ∧
    (∀ r : Response, aexit_closes (some r) false = [r.id]) ∧
    (∀ b : Bool, aexit_closes none b = []) ∧
    (∀ r : Response, aexit_closes (some r) true = []) := by
  refine ⟨?_, fun r => rfl, fun b => rfl, fun r => rfl⟩
  intro o rfs req ps i fuel
  induction fuel generalizing i with
  | zero =>
    intro out h
    cases h
  | succ fuel ih =>
    intro out h
    cases hstep : attemptStep o rfs (i+1) (req (mkCallArgs (i+1) (selectParams ps (i+1)))) with
    | term res =>
      simp only [do_request_aux, hstep] at h
      have h3 := Option.some.inj h
      rw [← h3]
      exact ⟨rfl, rfl⟩
    | retry targs =>
      simp only [do_request_aux, hstep] at h
      cases hrest : do_request_aux o rfs req ps (i+1) fuel with
      | none =>
        rw [hrest] at h
        cases h
      | some rest =>
        rw [hrest] at h
        have h3 := Option.some.inj h
        have h4 := ih (i+1) rest hrest
        rw [← h3]
        exact ⟨h4.1, h4.2⟩

/-- Witness for the amended C8 at the concrete two-attempt run. -/
theorem spec_C8_witness :
    ∃ out : RunOut,
      do_request_aux (expPolicy 2) false req500Fresh [params500] 0 2 = some out ∧
      out.closed_in_loop = [] ∧ out.stored = storedOf out.result := by
  cases hout : do_request_aux (expPolicy 2) false req500Fresh [params500] 0 2 with
  | none => exact absurd hout (by decide)
  | some out =>
    exact ⟨out, rfl,
      spec_C8.1 (expPolicy 2) false req500Fresh [params500] 0 2 out hout⟩

end AiohttpRetry
